import Mathlib

/-!
Shallow embedding of the message codec, framing loop, monitor-event decoder and
handshake-wait state machine of the rust-bitcoincore-zmq repository, together
with theorems settling the frozen claims about it.

The repository contains two coexisting revisions of the message decoder:
* the older one in `src/message.rs` (namespace `V1` below), and
* the newer one in `src/message/{mod,raw,topic}.rs` (namespace `V2` below).
Both share `src/sequence_message.rs` (`SequenceMessage` below).

Bytes are modelled as `Fin 256`, machine integers as `Fin (2^32)` / `Fin (2^64)`
with explicit little-endian byte conversions.  The external bitcoin consensus
codec (serialize/deserialize of blocks and transactions) is out of scope of the
repository and is modelled by type parameters `Block`, `Tx` together with
serialization functions passed as arguments.
-/

deriving instance DecidableEq for Except

/-- A byte, as stored in Rust's `u8`. -/
abbrev Byte := Fin 256

/-- Rust's `u32`. -/
abbrev U32 := Fin (2 ^ 32)

/-- Rust's `u64`. -/
abbrev U64 := Fin (2 ^ 64)

/-- Little-endian value of a byte list: `u32::from_le_bytes` /
`u64::from_le_bytes` on the underlying bytes. -/
def fromLeList : List Byte → Nat
  | [] => 0
  | b :: rest => b.val + 256 * fromLeList rest

/-- Little-endian encoding of `n` into exactly `k` bytes:
`u32::to_le_bytes` / `u64::to_le_bytes`. -/
def toLeList : Nat → Nat → List Byte
  | 0, _ => []
  | k + 1, n => ⟨n % 256, by omega⟩ :: toLeList k (n / 256)

/-- Little-endian `u32` from (the first four bytes of) a byte list;
`u32::from_le_bytes` at call sites where the slice has length 4 (the
reduction modulo `2 ^ 32` is then the identity, since four bytes are below
`2 ^ 32`). -/
def fromLeU32 (l : List Byte) : U32 :=
  ⟨fromLeList (l.take 4) % 2 ^ 32, by omega⟩

/-- Little-endian `u64` from (the first eight bytes of) a byte list;
`u64::from_le_bytes` at call sites where the slice has length 8 (the
reduction modulo `2 ^ 64` is then the identity). -/
def fromLeU64 (l : List Byte) : U64 :=
  ⟨fromLeList (l.take 8) % 2 ^ 64, by omega⟩

/-- A 32-byte hash as stored inside `BlockHash` / `Txid`
(`to_byte_array` / `from_byte_array` byte order). -/
abbrev Hash256 := { l : List Byte // l.length = 32 }

/-- The shared error enum of `src/error.rs`.  `invalidTopic` is the older
revision's variant (real length plus the fixed 9-byte capture buffer);
`unknownTopic` is the newer revision's `Error::UnknownTopic(UnknownTopicError)`
wrapper around `src/message/topic.rs`'s `UnknownTopicError`, which stores the
whole offending topic byte string (`Box<[u8]>`); the wrapper variant itself is
evidenced by the tests in `src/message/mod.rs`.  External payloads
(`bitcoin::consensus::encode::Error`, `zmq::Error`) are modelled payload-free. -/
inductive Err
  | invalidMutlipartLength (len : Nat)
  | invalidTopic (len : Nat) (buf : List Byte)
  | invalidDataLength (len : Nat)
  | invalidSequenceLength (len : Nat)
  | invalidSequenceMessageLength (len : Nat)
  | invalidSequenceMessageLabel (label : Byte)
  | invalid256BitHashLength (len : Nat)
  | bitcoinDeserialization
  | unknownTopic (topic : List Byte)
  deriving DecidableEq, Repr

/-- `SequenceMessage` of `src/sequence_message.rs`. -/
inductive SequenceMessage
  | blockConnect (blockhash : Hash256)
  | blockDisconnect (blockhash : Hash256)
  | mempoolAcceptance (txid : Hash256) (mempoolSequence : U64)
  | mempoolRemoval (txid : Hash256) (mempoolSequence : U64)
  deriving DecidableEq

namespace SequenceMessage

/-- `SequenceMessage::raw_length`. -/
def raw_length : SequenceMessage → Nat
  | blockConnect _ | blockDisconnect _ => 33
  | mempoolAcceptance _ _ | mempoolRemoval _ _ => 41

/-- `SequenceMessage::label` (`b'C'`, `b'D'`, `b'A'`, `b'R'`). -/
def label : SequenceMessage → Byte
  | blockConnect _ => 67
  | blockDisconnect _ => 68
  | mempoolAcceptance _ _ => 65
  | mempoolRemoval _ _ => 82

/-- `SequenceMessage::inner_hash_as_bytes`: the contained hash's byte array,
reversed (wire byte order). -/
def inner_hash_as_bytes : SequenceMessage → List Byte
  | blockConnect blockhash | blockDisconnect blockhash => blockhash.val.reverse
  | mempoolAcceptance txid _ | mempoolRemoval txid _ => txid.val.reverse

/-- `SequenceMessage::mempool_sequence`. -/
def mempool_sequence : SequenceMessage → Option U64
  | blockConnect _ | blockDisconnect _ => none
  | mempoolAcceptance _ mempoolSequence | mempoolRemoval _ mempoolSequence =>
      some mempoolSequence

/-- `SequenceMessage::as_bytes`: hash (wire order), label byte, then the
little-endian mempool sequence for the mempool variants. -/
def as_bytes (sm : SequenceMessage) : List Byte :=
  sm.inner_hash_as_bytes ++ [sm.label] ++
    (match sm.mempool_sequence with
     | some mempoolSequence => toLeList 8 mempoolSequence.val
     | none => [])

/-- `SequenceMessage::from_byte_slice`. -/
def from_byte_slice (bytes : List Byte) : Except Err SequenceMessage :=
  if h : bytes.length < 33 then
    .error (.invalidSequenceMessageLength bytes.length)
  else
    -- `bytes[0..32]`, reversed: byte order of `from_byte_array`
    let hash : Hash256 := ⟨(bytes.take 32).reverse, by
      simp [List.length_reverse, List.length_take]; omega⟩
    let labelByte := bytes.get ⟨32, by omega⟩
    if labelByte = 67 ∨ labelByte = 68 then
      if bytes.length ≠ 33 then
        .error (.invalidSequenceMessageLength bytes.length)
      else if labelByte = 67 then
        .ok (blockConnect hash)
      else
        .ok (blockDisconnect hash)
    else if labelByte = 65 ∨ labelByte = 82 then
      if bytes.length ≠ 41 then
        .error (.invalidSequenceMessageLength bytes.length)
      else
        -- `u64::from_le_bytes(bytes[33..41])`
        let mempoolSequence := fromLeU64 (bytes.drop 33)
        if labelByte = 65 then
          .ok (mempoolAcceptance hash mempoolSequence)
        else
          .ok (mempoolRemoval hash mempoolSequence)
    else
      .error (.invalidSequenceMessageLabel labelByte)

end SequenceMessage

/-- `TOPIC_MAX_LEN` of `src/message.rs`. -/
def TOPIC_MAX_LEN : Nat := 9

/-- `DATA_MAX_LEN = Weight::MAX_BLOCK.to_wu()` of `src/message.rs`. -/
def DATA_MAX_LEN : Nat := 4000000

/-- `SEQUENCE_LEN` of `src/message.rs`. -/
def SEQUENCE_LEN : Nat := 4

/-- ASCII bytes of `"hashblock"`. -/
def hashblockBytes : List Byte := [104, 97, 115, 104, 98, 108, 111, 99, 107]

/-- ASCII bytes of `"hashtx"`. -/
def hashtxBytes : List Byte := [104, 97, 115, 104, 116, 120]

/-- ASCII bytes of `"rawblock"`. -/
def rawblockBytes : List Byte := [114, 97, 119, 98, 108, 111, 99, 107]

/-- ASCII bytes of `"rawtx"`. -/
def rawtxBytes : List Byte := [114, 97, 119, 116, 120]

/-- ASCII bytes of `"sequence"`. -/
def sequenceBytes : List Byte := [115, 101, 113, 117, 101, 110, 99, 101]

/-- The fixed `[0u8; TOPIC_MAX_LEN]` capture buffer of the older revision's
unknown-topic error: the topic truncated to 9 bytes, zero-padded. -/
def pad9 (topic : List Byte) : List Byte :=
  topic.take TOPIC_MAX_LEN ++ List.replicate (TOPIC_MAX_LEN - topic.length) 0

namespace V1

/-- `Message` of the older revision `src/message.rs`: one variant per topic,
each carrying the per-topic payload and the `u32` sequence number.  `Block` and
`Tx` are the external `bitcoin::Block` / `bitcoin::Transaction` types. -/
inductive Message (Block Tx : Type)
  | hashBlock (blockhash : Hash256) (sequence : U32)
  | hashTx (txid : Hash256) (sequence : U32)
  | block (b : Block) (sequence : U32)
  | tx (t : Tx) (sequence : U32)
  | sequenceMsg (sm : SequenceMessage) (sequence : U32)
  deriving DecidableEq

variable {Block Tx : Type}
variable (serBlock : Block → List Byte) (serTx : Tx → List Byte)
variable (deserBlock : List Byte → Except Unit Block)
variable (deserTx : List Byte → Except Unit Tx)

/-- `Message::topic` (the topic's byte string). -/
def Message.topic : Message Block Tx → List Byte
  | .hashBlock _ _ => hashblockBytes
  | .hashTx _ _ => hashtxBytes
  | .block _ _ => rawblockBytes
  | .tx _ _ => rawtxBytes
  | .sequenceMsg _ _ => sequenceBytes

/-- `Message::sequence`. -/
def Message.sequence : Message Block Tx → U32
  | .hashBlock _ s | .hashTx _ s | .block _ s | .tx _ s | .sequenceMsg _ s => s

/-- `Message::serialize_data_to_vec`: the middle (data) frame.  Hashes go out
in reversed (wire) byte order; blocks and transactions through the external
consensus serializer. -/
def Message.serialize_data_to_vec : Message Block Tx → List Byte
  | .hashBlock blockhash _ => blockhash.val.reverse
  | .hashTx txid _ => txid.val.reverse
  | .block b _ => serBlock b
  | .tx t _ => serTx t
  | .sequenceMsg sm _ => sm.as_bytes

/-- `Message::serialize_to_vecs`: the 3-frame wire form. -/
def Message.serialize_to_vecs (m : Message Block Tx) : List (List Byte) :=
  [m.topic, m.serialize_data_to_vec serBlock serTx, toLeList 4 m.sequence.val]

/-- `Message::from_parts` of the older revision: branch on the topic bytes;
unknown topics are captured into the fixed 9-byte buffer. -/
def Message.from_parts (topic data : List Byte) (sequence : U32) :
    Except Err (Message Block Tx) :=
  if topic = hashblockBytes ∨ topic = hashtxBytes then
    if hd : data.length = 32 then
      let hash : Hash256 := ⟨data.reverse, by simp [hd]⟩
      if topic = hashblockBytes then .ok (.hashBlock hash sequence)
      else .ok (.hashTx hash sequence)
    else .error (.invalid256BitHashLength data.length)
  else if topic = rawblockBytes then
    match deserBlock data with
    | .ok b => .ok (.block b sequence)
    | .error _ => .error .bitcoinDeserialization
  else if topic = rawtxBytes then
    match deserTx data with
    | .ok t => .ok (.tx t sequence)
    | .error _ => .error .bitcoinDeserialization
  else if topic = sequenceBytes then
    match SequenceMessage.from_byte_slice data with
    | .ok sm => .ok (.sequenceMsg sm sequence)
    | .error e => .error e
  else
    .error (.invalidTopic topic.length (pad9 topic))

/-- `Message::from_fixed_size_multipart`: the sequence frame must be exactly
4 bytes (checked before the topic is examined), then `from_parts`. -/
def Message.from_fixed_size_multipart (topic data seqFrame : List Byte) :
    Except Err (Message Block Tx) :=
  if seqFrame.length = 4 then
    Message.from_parts deserBlock deserTx topic data (fromLeU32 seqFrame)
  else .error (.invalidSequenceLength seqFrame.length)

/-- `Message::from_multipart` of the older revision: exactly 3 frames
(`InvalidMutlipartLength` with the real count otherwise). -/
def Message.from_multipart (mp : List (List Byte)) :
    Except Err (Message Block Tx) :=
  match mp with
  | [topic, data, seqFrame] =>
      Message.from_fixed_size_multipart deserBlock deserTx topic data seqFrame
  | _ => .error (.invalidMutlipartLength mp.length)

end V1

namespace V2

/-- `Topic` of `src/message/topic.rs`. -/
inductive Topic
  | hashBlock
  | hashTx
  | rawBlock
  | rawTx
  | sequence
  deriving DecidableEq

namespace Topic

/-- `Topic::as_bytes` (= `as_str().as_bytes()`). -/
def as_bytes : Topic → List Byte
  | hashBlock => hashblockBytes
  | hashTx => hashtxBytes
  | rawBlock => rawblockBytes
  | rawTx => rawtxBytes
  | sequence => sequenceBytes

/-- `Topic::try_from_bytes_const`: exact match against the five topic
strings. -/
def try_from_bytes_const (bytes : List Byte) : Option Topic :=
  if bytes = hashblockBytes then some hashBlock
  else if bytes = hashtxBytes then some hashTx
  else if bytes = rawblockBytes then some rawBlock
  else if bytes = rawtxBytes then some rawTx
  else if bytes = sequenceBytes then some sequence
  else none

/-- `Topic::try_from_bytes`: like `try_from_bytes_const`, but an unknown topic
becomes an `UnknownTopicError` holding a copy of the whole topic byte string
(`UnknownTopicError::from_bytes(bytes.into())`). -/
def try_from_bytes (bytes : List Byte) : Except (List Byte) Topic :=
  match try_from_bytes_const bytes with
  | some t => .ok t
  | none => .error bytes

end Topic

/-- `RawMessage` of `src/message/raw.rs` (with `Bytes = Vec<u8>`). -/
structure RawMessage where
  topic : Topic
  data : List Byte
  sequence : U32
  deriving DecidableEq

namespace RawMessage

/-- `RawMessage::try_from_multipart_parts`: topic is resolved first, then the
sequence frame must be exactly 4 bytes. -/
def try_from_multipart_parts (topic data seqFrame : List Byte) :
    Except Err RawMessage :=
  match Topic.try_from_bytes topic with
  | .error unknown => .error (.unknownTopic unknown)
  | .ok t =>
      if seqFrame.length = 4 then
        .ok ⟨t, data, fromLeU32 seqFrame⟩
      else .error (.invalidSequenceLength seqFrame.length)

/-- `RawMessage::try_from_multipart`: three frames are taken from the
iterator (`InvalidMutlipartLength 0/1/2` when it runs out), the remainder is
counted and must be empty, then `try_from_multipart_parts`. -/
def try_from_multipart (mp : List (List Byte)) : Except Err RawMessage :=
  match mp with
  | [] => .error (.invalidMutlipartLength 0)
  | [_] => .error (.invalidMutlipartLength 1)
  | [_, _] => .error (.invalidMutlipartLength 2)
  | topic :: data :: seqFrame :: rest =>
      if rest.isEmpty then try_from_multipart_parts topic data seqFrame
      else .error (.invalidMutlipartLength (rest.length + 3))

/-- `RawMessage::to_vecs`. -/
def to_vecs (raw : RawMessage) : List (List Byte) :=
  [raw.topic.as_bytes, raw.data, toLeList 4 raw.sequence.val]

end RawMessage

/-- `MessageContent` of `src/message/mod.rs`. -/
inductive MessageContent (Block Tx : Type)
  | blockHash (blockhash : Hash256)
  | txid (txid : Hash256)
  | block (b : Block)
  | tx (t : Tx)
  | sequence (sm : SequenceMessage)
  deriving DecidableEq

variable {Block Tx : Type}
variable (serBlock : Block → List Byte) (serTx : Tx → List Byte)
variable (deserBlock : List Byte → Except Unit Block)
variable (deserTx : List Byte → Except Unit Tx)

namespace MessageContent

/-- `MessageContent::topic`. -/
def topic : MessageContent Block Tx → Topic
  | .blockHash _ => .hashBlock
  | .txid _ => .hashTx
  | .block _ => .rawBlock
  | .tx _ => .rawTx
  | .sequence _ => .sequence

/-- `MessageContent::serialize_data_to_vec`. -/
def serialize_data_to_vec : MessageContent Block Tx → List Byte
  | .blockHash h => h.val.reverse
  | .txid h => h.val.reverse
  | .block b => serBlock b
  | .tx t => serTx t
  | .sequence sm => sm.as_bytes

/-- `MessageContent::try_from_raw_message`: branch on the already-resolved
`Topic` of the raw message. -/
def try_from_raw_message (raw : RawMessage) :
    Except Err (MessageContent Block Tx) :=
  match raw.topic with
  | .hashBlock =>
      if hd : raw.data.length = 32 then
        .ok (.blockHash ⟨raw.data.reverse, by simp [hd]⟩)
      else .error (.invalid256BitHashLength raw.data.length)
  | .hashTx =>
      if hd : raw.data.length = 32 then
        .ok (.txid ⟨raw.data.reverse, by simp [hd]⟩)
      else .error (.invalid256BitHashLength raw.data.length)
  | .rawBlock =>
      match deserBlock raw.data with
      | .ok b => .ok (.block b)
      | .error _ => .error .bitcoinDeserialization
  | .rawTx =>
      match deserTx raw.data with
      | .ok t => .ok (.tx t)
      | .error _ => .error .bitcoinDeserialization
  | .sequence =>
      match SequenceMessage.from_byte_slice raw.data with
      | .ok sm => .ok (.sequence sm)
      | .error e => .error e

end MessageContent

/-- `Message` of `src/message/mod.rs`: content plus sequence number. -/
structure Message (Block Tx : Type) where
  content : MessageContent Block Tx
  sequence : U32
  deriving DecidableEq

namespace Message

/-- `Message::try_from_raw_message`. -/
def try_from_raw_message (raw : RawMessage) :
    Except Err (Message Block Tx) :=
  match MessageContent.try_from_raw_message deserBlock deserTx raw with
  | .ok content => .ok ⟨content, raw.sequence⟩
  | .error e => .error e

/-- `Message::from_multipart` of the newer revision. -/
def from_multipart (mp : List (List Byte)) : Except Err (Message Block Tx) :=
  match RawMessage.try_from_multipart mp with
  | .ok raw => try_from_raw_message deserBlock deserTx raw
  | .error e => .error e

/-- `Message::serialize_to_raw_message`. -/
def serialize_to_raw_message (m : Message Block Tx) : RawMessage :=
  ⟨m.content.topic, m.content.serialize_data_to_vec serBlock serTx, m.sequence⟩

/-- `Message::serialize_to_vecs`: the 3-frame wire form. -/
def serialize_to_vecs (m : Message Block Tx) : List (List Byte) :=
  (m.serialize_to_raw_message serBlock serTx).to_vecs

end Message

end V2

section RecvInternal

variable {Block Tx : Type}
variable (deserBlock : List Byte → Except Unit Block)
variable (deserTx : List Byte → Except Unit Tx)

/-- The trailing drain loop of `recv_internal` (`src/subscribe/mod.rs` /
`src/subscribe.rs`): starting from frame count `len`, receive and discard one
frame per iteration, and stop with `InvalidMutlipartLength` of the final count
when no frame is pending.  `none` models the `unwrap` panic of the
frame-iterator `receive_into` on an exhausted iterator; the loop is entered
and resumed only when a frame is pending, so that case is unreachable from
`recvInternal`. -/
def drainLoop : Nat → List (List Byte) → Option (Nat × List (List Byte))
  | _, [] => none
  | len, _ :: rest =>
      if rest.isEmpty then some (len + 1, [])
      else drainLoop (len + 1) rest

/-- `recv_internal` over the frame-list receiver (`impl ReceiveFrom for
slice::Iter<zmq::Message>`): each `receive_into` pops the next frame,
returning its real length and copying at most the buffer's capacity
(9 bytes for the topic, `DATA_MAX_LEN` for the data, 4 for the sequence);
`has_next` is whether frames remain.  The result is the decode result of the
older revision's `Message::from_parts` paired with the frames left unread;
`none` models the panic on an empty frame list (first `receive_into` has no
frame). -/
def recvInternal (frames : List (List Byte)) :
    Option (Except Err (V1.Message Block Tx) × List (List Byte)) :=
  match frames with
  | [] => none
  | topicFrame :: rest1 =>
    -- topic buffer: `[0u8; TOPIC_MAX_LEN]`; when the length check passes the
    -- buffer's first `topic_len` bytes are exactly the frame
    if topicFrame.length > TOPIC_MAX_LEN then
      some (.error (.invalidTopic topicFrame.length (pad9 topicFrame)), rest1)
    else
      match rest1 with
      | [] => some (.error (.invalidMutlipartLength 1), [])
      | dataFrame :: rest2 =>
        if dataFrame.length > DATA_MAX_LEN then
          some (.error (.invalidDataLength dataFrame.length), rest2)
        else
          match rest2 with
          | [] => some (.error (.invalidMutlipartLength 2), [])
          | seqFrame :: rest3 =>
            if seqFrame.length ≠ SEQUENCE_LEN then
              some (.error (.invalidSequenceLength seqFrame.length), rest3)
            else if rest3.isEmpty then
              some (V1.Message.from_parts deserBlock deserTx topicFrame
                dataFrame (fromLeU32 seqFrame), [])
            else
              match drainLoop 3 rest3 with
              | some (len, rest) =>
                  some (.error (.invalidMutlipartLength len), rest)
              | none => none

end RecvInternal

/-- `HandshakeFailure` of `src/monitor/event.rs` (values of the
`ZMQ_EVENT_HANDSHAKE_FAILED_PROTOCOL` event's data word).  The numeric codes
are the `zmq_sys`/`zmq.h` `ZMQ_PROTOCOL_ERROR_*` constants, external to the
repository. -/
inductive HandshakeFailure
  | zmtpUnspecified
  | zmtpUnexpectedCommand
  | zmtpInvalidSequence
  | zmtpKeyExchange
  | zmtpMalformedCommandUnspecified
  | zmtpMalformedCommandMessage
  | zmtpMalformedCommandHello
  | zmtpMalformedCommandInitiate
  | zmtpMalformedCommandError
  | zmtpMalformedCommandReady
  | zmtpMalformedCommandWelcome
  | zmtpInvalidMetadata
  | zmtpCryptographic
  | zmtpMechanismMismatch
  | zapUnspecified
  | zapMalformedReply
  | zapBadRequestId
  | zapBadVersion
  | zapInvalidStatusCode
  | zapInvalidMetadata
  deriving DecidableEq

namespace HandshakeFailure

/-- `HandshakeFailure::from_raw` (generated by
`define_handshake_failure_enum`). -/
def from_raw (data : U32) : Option HandshakeFailure :=
  if data.val = 0x10000000 then some zmtpUnspecified
  else if data.val = 0x10000001 then some zmtpUnexpectedCommand
  else if data.val = 0x10000002 then some zmtpInvalidSequence
  else if data.val = 0x10000003 then some zmtpKeyExchange
  else if data.val = 0x10000011 then some zmtpMalformedCommandUnspecified
  else if data.val = 0x10000012 then some zmtpMalformedCommandMessage
  else if data.val = 0x10000013 then some zmtpMalformedCommandHello
  else if data.val = 0x10000014 then some zmtpMalformedCommandInitiate
  else if data.val = 0x10000015 then some zmtpMalformedCommandError
  else if data.val = 0x10000016 then some zmtpMalformedCommandReady
  else if data.val = 0x10000017 then some zmtpMalformedCommandWelcome
  else if data.val = 0x10000018 then some zmtpInvalidMetadata
  else if data.val = 0x11000001 then some zmtpCryptographic
  else if data.val = 0x11000002 then some zmtpMechanismMismatch
  else if data.val = 0x20000000 then some zapUnspecified
  else if data.val = 0x20000001 then some zapMalformedReply
  else if data.val = 0x20000002 then some zapBadRequestId
  else if data.val = 0x20000003 then some zapBadVersion
  else if data.val = 0x20000004 then some zapInvalidStatusCode
  else if data.val = 0x20000005 then some zapInvalidMetadata
  else none

end HandshakeFailure

/-- `SocketEvent` of `src/monitor/event.rs`. -/
inductive SocketEvent
  | connected (fd : U32)
  | connectDelayed
  | connectRetried (interval : U32)
  | listening (fd : U32)
  | bindFailed (errno : U32)
  | accepted (fd : U32)
  | acceptFailed (errno : U32)
  | closed (fd : U32)
  | closeFailed (errno : U32)
  | disconnected (fd : U32)
  | monitorStopped
  | handshakeFailedNoDetail (fd : U32)
  | handshakeSucceeded
  | handshakeFailedProtocol (err : HandshakeFailure)
  | handshakeFailedAuth (errorCode : U32)
  | unknown (event : Fin (2 ^ 16)) (data : U32)
  deriving DecidableEq

/-- `MonitorMessageError` of `src/monitor/mod.rs`. -/
inductive MonitorMessageError
  | invalidMutlipartLength (len : Nat)
  | invalidEventFrameLength (len : Nat)
  | invalidEventData (eventType : Fin (2 ^ 16)) (data : U32)
  deriving DecidableEq

namespace SocketEvent

/-- `SocketEvent::from_raw` (generated by `define_socket_event_enum`):
`event as u32` is compared against the `zmq_sys` `ZMQ_EVENT_*` constants
(external to the repository); payload-free variants drop the data word,
`handshakeFailedProtocol` additionally requires the data word to be a known
`HandshakeFailure` code (`None` otherwise), and every other event code maps
to `unknown` with the code and data. -/
def from_raw (event : Fin (2 ^ 16)) (data : U32) : Option SocketEvent :=
  if event.val = 1 then some (connected data)
  else if event.val = 2 then some connectDelayed
  else if event.val = 4 then some (connectRetried data)
  else if event.val = 8 then some (listening data)
  else if event.val = 16 then some (bindFailed data)
  else if event.val = 32 then some (accepted data)
  else if event.val = 64 then some (acceptFailed data)
  else if event.val = 128 then some (closed data)
  else if event.val = 256 then some (closeFailed data)
  else if event.val = 512 then some (disconnected data)
  else if event.val = 1024 then some monitorStopped
  else if event.val = 2048 then some (handshakeFailedNoDetail data)
  else if event.val = 4096 then some handshakeSucceeded
  else if event.val = 8192 then
    match HandshakeFailure.from_raw data with
    | some err => some (handshakeFailedProtocol err)
    | none => none
  else if event.val = 16384 then some (handshakeFailedAuth data)
  else some (unknown event data)

/-- `SocketEvent::parse_from`: the event frame must be exactly 6 bytes
(`InvalidEventFrameLength` with the real length otherwise); bytes `[0..2)`
are the native-byte-order `u16` event type and bytes `[2..6)` the native
`u32` data word (native byte order is little-endian on the supported
targets), then `from_raw`, with `None` surfaced as `InvalidEventData`. -/
def parse_from (bytes : List Byte) :
    Except MonitorMessageError SocketEvent :=
  if bytes.length = 6 then
    let eventType : Fin (2 ^ 16) := ⟨fromLeList (bytes.take 2) % 2 ^ 16, by omega⟩
    let data : U32 := fromLeU32 ((bytes.drop 2).take 4)
    match from_raw eventType data with
    | some ev => .ok ev
    | none => .error (.invalidEventData eventType data)
  else .error (.invalidEventFrameLength bytes.length)

end SocketEvent

/-- The monitor-consuming loop of `subscribe_async_wait_handshake`
(`src/subscribe/stream.rs`), with the monitor stream abstracted to the
sequence of parsed `SocketEvent`s it yields: `connecting` is decremented on
`HandshakeSucceeded`, incremented on `Disconnected`, every other event just
continues the loop, and the loop returns as soon as the counter hits zero
(checked only after a handshake or disconnect event).  The result is the
suffix of events left unconsumed on resolution; `none` means the event
sequence ran out before the counter reached zero. -/
def waitHandshakeLoop : Nat → List SocketEvent → Option (List SocketEvent)
  | _, [] => none
  | connecting, e :: rest =>
      match e with
      | .handshakeSucceeded =>
          if connecting - 1 = 0 then some rest
          else waitHandshakeLoop (connecting - 1) rest
      | .disconnected _ =>
          if connecting + 1 = 0 then some rest
          else waitHandshakeLoop (connecting + 1) rest
      | _ => waitHandshakeLoop connecting rest

/-- `subscribe_async_wait_handshake` for `n` endpoints, abstracted as above:
with `n = 0` it returns before reading any monitor event, otherwise it runs
the monitor-consuming loop. -/
def subscribe_async_wait_handshake (n : Nat) (events : List SocketEvent) :
    Option (List SocketEvent) :=
  if n = 0 then some events else waitHandshakeLoop n events

/-- Trivial concrete "transaction"/"block" serializer used to instantiate the
codec-parameterised theorems at concrete inputs. -/
def unitSer : Unit → List Byte := fun _ => []

/-- Trivial concrete consensus deserializer matching `unitSer`. -/
def unitDeser : List Byte → Except Unit Unit := fun _ => .ok ()

/-- Outcome classification of a `SequenceMessage` decode, used to state the
decoder's complete case analysis: success, a length error with the carried
length, a label error with the carried byte, or any other error. -/
inductive SeqDecodeOutcome
  | success
  | errLen (len : Nat)
  | errLabel (label : Byte)
  | otherErr
  deriving DecidableEq

/-- Classify a `SequenceMessage` decode result. -/
def seqDecodeOutcome : Except Err SequenceMessage → SeqDecodeOutcome
  | .ok _ => .success
  | .error (.invalidSequenceMessageLength n) => .errLen n
  | .error (.invalidSequenceMessageLabel b) => .errLabel b
  | .error _ => .otherErr

/-- Whether a decode result is the `Invalid256BitHashLength` error. -/
def isHashLengthError {α : Type} : Except Err α → Bool
  | .error (.invalid256BitHashLength _) => true
  | _ => false

/-- Whether a `SocketEvent` is `HandshakeSucceeded`. -/
def SocketEvent.isHandshakeSucceeded : SocketEvent → Bool
  | .handshakeSucceeded => true
  | _ => false

/-- Whether a `SocketEvent` is `Disconnected`. -/
def SocketEvent.isDisconnected : SocketEvent → Bool
  | .disconnected _ => true
  | _ => false

/-- Error classes shared by the two decoder revisions: each class is one
error kind with its payload, except that the older revision's
`InvalidTopic` and the newer revision's `UnknownTopic` (which carry
differently-shaped captures of the offending topic) are both `topicErr`. -/
inductive ErrClass
  | multipartLen (len : Nat)
  | topicErr
  | dataLen (len : Nat)
  | seqLen (len : Nat)
  | seqMsgLen (len : Nat)
  | seqMsgLabel (label : Byte)
  | hashLen (len : Nat)
  | bitcoinDeser
  deriving DecidableEq

/-- Classify an error for the decoder-equivalence comparison. -/
def errClass : Err → ErrClass
  | .invalidMutlipartLength n => .multipartLen n
  | .invalidTopic _ _ => .topicErr
  | .unknownTopic _ => .topicErr
  | .invalidDataLength n => .dataLen n
  | .invalidSequenceLength n => .seqLen n
  | .invalidSequenceMessageLength n => .seqMsgLen n
  | .invalidSequenceMessageLabel b => .seqMsgLabel b
  | .invalid256BitHashLength n => .hashLen n
  | .bitcoinDeserialization => .bitcoinDeser

/-- The evident bijection from the older revision's `Message` (one variant per
topic) to the newer one's (content plus sequence). -/
def toV2 {Block Tx : Type} : V1.Message Block Tx → V2.Message Block Tx
  | .hashBlock h s => ⟨.blockHash h, s⟩
  | .hashTx h s => ⟨.txid h, s⟩
  | .block b s => ⟨.block b, s⟩
  | .tx t s => ⟨.tx t, s⟩
  | .sequenceMsg sm s => ⟨.sequence sm, s⟩

/-- Correspondence of the two revisions' decode results: both succeed with
the same message (up to `toV2`), or both fail with the same error class. -/
def corresponds {Block Tx : Type} :
    Except Err (V1.Message Block Tx) → Except Err (V2.Message Block Tx) → Prop
  | .ok m1, .ok m2 => toV2 m1 = m2
  | .error e1, .error e2 => errClass e1 = errClass e2
  | _, _ => False

instance {Block Tx : Type} [DecidableEq Block] [DecidableEq Tx] :
    ∀ (a : Except Err (V1.Message Block Tx))
      (b : Except Err (V2.Message Block Tx)), Decidable (corresponds a b)
  | .ok m1, .ok m2 => inferInstanceAs (Decidable (toV2 m1 = m2))
  | .error e1, .error e2 => inferInstanceAs (Decidable (errClass e1 = errClass e2))
  | .ok _, .error _ => isFalse fun h => h
  | .error _, .ok _ => isFalse fun h => h

theorem toLeList_length (k n : Nat) : (toLeList k n).length = k := by
  induction k generalizing n with
  | zero => rfl
  | succ k ih => simp [toLeList, ih]

theorem fromLeList_lt (l : List Byte) : fromLeList l < 256 ^ l.length := by
  induction l with
  | nil => simp [fromLeList]
  | cons b rest ih =>
      have hb := b.isLt
      simp only [fromLeList, List.length_cons, pow_succ]
      calc b.val + 256 * fromLeList rest
          ≤ 255 + 256 * fromLeList rest := by omega
        _ < 256 * (fromLeList rest + 1) := by omega
        _ ≤ 256 * 256 ^ rest.length := by
            have : fromLeList rest + 1 ≤ 256 ^ rest.length := ih
            omega
        _ = 256 ^ rest.length * 256 := by ring

theorem fromLeList_toLeList (k n : Nat) : fromLeList (toLeList k n) = n % 256 ^ k := by
  induction k generalizing n with
  | zero => simp [toLeList, fromLeList, Nat.mod_one]
  | succ k ih =>
      simp only [toLeList, fromLeList, ih]
      have h1 : n = 256 * (n / 256) + n % 256 := (Nat.div_add_mod n 256).symm
      have h2 : n / 256 = 256 ^ k * (n / 256 / 256 ^ k) + n / 256 % 256 ^ k :=
        (Nat.div_add_mod _ _).symm
      have hlt : n % 256 + 256 * (n / 256 % 256 ^ k) < 256 ^ (k + 1) := by
        have ha : n % 256 < 256 := Nat.mod_lt _ (by omega)
        have hb : n / 256 % 256 ^ k < 256 ^ k :=
          Nat.mod_lt _ (Nat.pos_pow_of_pos k (by omega))
        have : 256 ^ (k + 1) = 256 * 256 ^ k := by ring
        omega
      have key : n % 256 ^ (k + 1) = n % 256 + 256 * (n / 256 % 256 ^ k) := by
        conv_lhs => rw [h1]
        conv_lhs => rw [h2]
        have : 256 * (256 ^ k * (n / 256 / 256 ^ k) + n / 256 % 256 ^ k) + n % 256
            = (256 ^ (k + 1)) * (n / 256 / 256 ^ k)
              + (n % 256 + 256 * (n / 256 % 256 ^ k)) := by ring
        rw [this, Nat.mul_add_mod, Nat.mod_eq_of_lt hlt]
      omega

theorem fromLeU32_toLeList (n : U32) : fromLeU32 (toLeList 4 n.val) = n := by
  have hlen : (toLeList 4 n.val).length = 4 := toLeList_length 4 n.val
  apply Fin.ext
  show fromLeList ((toLeList 4 n.val).take 4) % 2 ^ 32 = n.val
  rw [List.take_of_length_le (by omega), fromLeList_toLeList,
    (by norm_num : (256 : Nat) ^ 4 = 2 ^ 32)]
  omega

theorem fromLeU64_toLeList (n : U64) : fromLeU64 (toLeList 8 n.val) = n := by
  have hlen : (toLeList 8 n.val).length = 8 := toLeList_length 8 n.val
  apply Fin.ext
  show fromLeList ((toLeList 8 n.val).take 8) % 2 ^ 64 = n.val
  rw [List.take_of_length_le (by omega), fromLeList_toLeList,
    (by norm_num : (256 : Nat) ^ 8 = 2 ^ 64)]
  omega

namespace SequenceMessage

theorem length_as_bytes (sm : SequenceMessage) :
    (as_bytes sm).length = raw_length sm := by
  cases sm <;>
    simp [as_bytes, raw_length, inner_hash_as_bytes, mempool_sequence, label,
      toLeList_length]

theorem wire_take32 (l : List Byte) (hl : l.length = 32) (lb : Byte)
    (tail : List Byte) : (l ++ [lb] ++ tail).take 32 = l := by
  rw [List.append_assoc, ← hl, List.take_left]

theorem wire_drop33 (l : List Byte) (hl : l.length = 32) (lb : Byte)
    (tail : List Byte) : (l ++ [lb] ++ tail).drop 33 = tail := by
  have hlen : (l ++ [lb]).length = 33 := by simp [hl]
  rw [← hlen, List.drop_left]

theorem wire_length (l : List Byte) (hl : l.length = 32) (lb : Byte)
    (tail : List Byte) : (l ++ [lb] ++ tail).length = 33 + tail.length := by
  simp [hl]; omega

theorem wire_get32 (l : List Byte) (hl : l.length = 32) (lb : Byte)
    (tail : List Byte) (hb : 32 < (l ++ [lb] ++ tail).length) :
    (l ++ [lb] ++ tail).get ⟨32, hb⟩ = lb := by
  rw [List.get_eq_getElem]
  show (l ++ [lb] ++ tail)[(32 : Nat)] = lb
  simp only [List.append_assoc]
  rw [List.getElem_append_right hl.le]
  simp [hl]

/-- Decode inverts encode for `SequenceMessage` (shared helper). -/
theorem roundtrip (sm : SequenceMessage) :
    from_byte_slice (as_bytes sm) = .ok sm := by
  have d1 : ¬((68 : Byte) = 67) := by decide
  have d2 : ¬((65 : Byte) = 67) := by decide
  have d3 : ¬((65 : Byte) = 68) := by decide
  have d4 : ¬((82 : Byte) = 67) := by decide
  have d5 : ¬((82 : Byte) = 68) := by decide
  have d6 : ¬((82 : Byte) = 65) := by decide
  obtain ⟨⟨hsh, hl⟩⟩ | ⟨⟨hsh, hl⟩⟩ | ⟨⟨hsh, hl⟩, m⟩ | ⟨⟨hsh, hl⟩, m⟩ := sm
  all_goals
    simp only [as_bytes, inner_hash_as_bytes, mempool_sequence, label]
  all_goals
    have h32 : (hsh.reverse).length = 32 := by simp [hl]
  · rw [from_byte_slice,
      dif_neg (by rw [wire_length _ h32]; simp),
      wire_get32 _ h32]
    simp [wire_take32 _ h32, List.reverse_reverse, wire_length _ h32]
    rw [if_pos hl]
    have htake : (hsh.reverse ++ [67]).take 32 = hsh.reverse := by
      rw [← h32]; exact List.take_left _ _
    simp [htake]
  · rw [from_byte_slice,
      dif_neg (by rw [wire_length _ h32]; simp),
      wire_get32 _ h32]
    simp [wire_take32 _ h32, List.reverse_reverse, wire_length _ h32, d1]
    rw [if_pos hl]
    have htake : (hsh.reverse ++ [68]).take 32 = hsh.reverse := by
      rw [← h32]; exact List.take_left _ _
    simp [htake]
  · rw [from_byte_slice,
      dif_neg (by rw [wire_length _ h32]; simp [toLeList_length]),
      wire_get32 _ h32]
    simp [wire_take32 _ h32, wire_drop33 _ h32, List.reverse_reverse,
      wire_length _ h32, toLeList_length, fromLeU64_toLeList, d2, d3]
    rw [if_pos hl]
    have htake : (hsh.reverse ++ 65 :: toLeList 8 m.val).take 32 = hsh.reverse := by
      rw [← List.singleton_append, ← h32]; exact List.take_left _ _
    have hdrop : (hsh.reverse ++ 65 :: toLeList 8 m.val).drop 33 = toLeList 8 m.val := by
      rw [← List.singleton_append, ← List.append_assoc]
      have h33 : (hsh.reverse ++ [65]).length = 33 := by simp [h32]
      rw [← h33]; exact List.drop_left _ _
    simp [htake, hdrop, fromLeU64_toLeList]
  · rw [from_byte_slice,
      dif_neg (by rw [wire_length _ h32]; simp [toLeList_length]),
      wire_get32 _ h32]
    simp [wire_take32 _ h32, wire_drop33 _ h32, List.reverse_reverse,
      wire_length _ h32, toLeList_length, fromLeU64_toLeList, d4, d5, d6]
    rw [if_pos hl]
    have htake : (hsh.reverse ++ 82 :: toLeList 8 m.val).take 32 = hsh.reverse := by
      rw [← List.singleton_append, ← h32]; exact List.take_left _ _
    have hdrop : (hsh.reverse ++ 82 :: toLeList 8 m.val).drop 33 = toLeList 8 m.val := by
      rw [← List.singleton_append, ← List.append_assoc]
      have h33 : (hsh.reverse ++ [82]).length = 33 := by simp [h32]
      rw [← h33]; exact List.drop_left _ _
    simp [htake, hdrop, fromLeU64_toLeList]

end SequenceMessage

theorem drainLoop_eq (len : Nat) (x : List Byte) (rest : List (List Byte)) :
    drainLoop len (x :: rest) = some (len + 1 + rest.length, []) := by
  induction rest generalizing len x with
  | nil => simp [drainLoop]
  | cons y ys ih =>
      rw [drainLoop]
      simp only [List.isEmpty_cons, ih]
      simp [Prod.ext_iff]
      omega

theorem from_byte_slice_no_hash_error (bytes : List Byte) :
    isHashLengthError (SequenceMessage.from_byte_slice bytes) = false := by
  rw [SequenceMessage.from_byte_slice]
  repeat' first | split | dsimp only
  all_goals rfl

/-- C2: for every constructible `SequenceMessage` `s`, decoding the bytes
produced by `as_bytes s` yields `s` again, the encoded length equals
`s.raw_length()`, and `raw_length` is 33 for `BlockConnect`/`BlockDisconnect`
and 41 for `MempoolAcceptance`/`MempoolRemoval`. -/
theorem C2_sequence_message_roundtrip :
    (∀ sm : SequenceMessage,
        SequenceMessage.from_byte_slice sm.as_bytes = .ok sm) ∧
    (∀ sm : SequenceMessage, sm.as_bytes.length = sm.raw_length) ∧
    (∀ h : Hash256, (SequenceMessage.blockConnect h).raw_length = 33 ∧
        (SequenceMessage.blockDisconnect h).raw_length = 33) ∧
    (∀ (h : Hash256) (m : U64),
        (SequenceMessage.mempoolAcceptance h m).raw_length = 41 ∧
        (SequenceMessage.mempoolRemoval h m).raw_length = 41) :=
  ⟨SequenceMessage.roundtrip, SequenceMessage.length_as_bytes,
    fun _ => ⟨rfl, rfl⟩, fun _ _ => ⟨rfl, rfl⟩⟩

/-- C3: `SequenceMessage` decode performs exactly this case analysis: inputs
shorter than 33 bytes give `InvalidSequenceMessageLength` with the input
length; otherwise the label byte at index 32 decides: `C`/`D` (67/68) succeed
only at total length exactly 33, `A`/`R` (65/82) only at exactly 41 (length
errors carry the input length), and any other label gives
`InvalidSequenceMessageLabel` with that byte. -/
theorem C3_sequence_decode_case_analysis (bytes : List Byte) :
    seqDecodeOutcome (SequenceMessage.from_byte_slice bytes) =
      if bytes.length < 33 then .errLen bytes.length
      else if bytes.getD 32 0 = 67 ∨ bytes.getD 32 0 = 68 then
        if bytes.length = 33 then .success else .errLen bytes.length
      else if bytes.getD 32 0 = 65 ∨ bytes.getD 32 0 = 82 then
        if bytes.length = 41 then .success else .errLen bytes.length
      else .errLabel (bytes.getD 32 0) := by
  by_cases h : bytes.length < 33
  · rw [SequenceMessage.from_byte_slice, dif_pos h, if_pos h]
    rfl
  · have hb : 32 < bytes.length := by omega
    have hget : ∀ p : 32 < bytes.length, bytes.get ⟨32, p⟩ = bytes.getD 32 0 :=
      fun p => by rw [List.get_eq_getElem, ← List.getD_eq_getElem _ _ p]
    rw [SequenceMessage.from_byte_slice, dif_neg h, if_neg h]
    simp only [hget]
    split_ifs <;> simp [seqDecodeOutcome] <;> omega

/-- C3 witness: the theorem applied at a concrete 33-byte `BlockConnect`
payload. -/
theorem C3_sequence_decode_case_analysis_witness :
    seqDecodeOutcome
        (SequenceMessage.from_byte_slice
          (List.replicate 32 (0 : Byte) ++ [67])) =
      if (List.replicate 32 (0 : Byte) ++ [67]).length < 33 then
        .errLen (List.replicate 32 (0 : Byte) ++ [67]).length
      else if (List.replicate 32 (0 : Byte) ++ [67]).getD 32 0 = 67 ∨
          (List.replicate 32 (0 : Byte) ++ [67]).getD 32 0 = 68 then
        if (List.replicate 32 (0 : Byte) ++ [67]).length = 33 then .success
        else .errLen (List.replicate 32 (0 : Byte) ++ [67]).length
      else if (List.replicate 32 (0 : Byte) ++ [67]).getD 32 0 = 65 ∨
          (List.replicate 32 (0 : Byte) ++ [67]).getD 32 0 = 82 then
        if (List.replicate 32 (0 : Byte) ++ [67]).length = 41 then .success
        else .errLen (List.replicate 32 (0 : Byte) ++ [67]).length
      else .errLabel ((List.replicate 32 (0 : Byte) ++ [67]).getD 32 0) :=
  C3_sequence_decode_case_analysis (List.replicate 32 (0 : Byte) ++ [67])

/-- C4: the handshake-wait over `n` endpoints, consuming monitor events with
`pending` initialised to `n`: with `n = 0` it resolves at once consuming no
event; with a positive count it never resolves on an exhausted stream,
decrements on `HandshakeSucceeded` (resolving exactly when the counter hits
zero), increments on `Disconnected`, and ignores every other event. -/
theorem C4_wait_handshake_state_machine :
    (∀ events, subscribe_async_wait_handshake 0 events = some events) ∧
    (∀ n, subscribe_async_wait_handshake (n + 1) [] = none) ∧
    (∀ n rest,
        subscribe_async_wait_handshake (n + 1)
            (SocketEvent.handshakeSucceeded :: rest) =
          if n = 0 then some rest else subscribe_async_wait_handshake n rest) ∧
    (∀ n fd rest,
        subscribe_async_wait_handshake (n + 1)
            (SocketEvent.disconnected fd :: rest) =
          subscribe_async_wait_handshake (n + 2) rest) ∧
    (∀ n e rest, e.isHandshakeSucceeded = false → e.isDisconnected = false →
        subscribe_async_wait_handshake (n + 1) (e :: rest) =
          subscribe_async_wait_handshake (n + 1) rest) := by
  refine ⟨fun events => by simp [subscribe_async_wait_handshake],
    fun n => by simp [subscribe_async_wait_handshake, waitHandshakeLoop],
    fun n rest => ?_, fun n fd rest => ?_, fun n e rest he hd => ?_⟩
  · rcases n with _ | m <;>
      simp [subscribe_async_wait_handshake, waitHandshakeLoop]
  · simp [subscribe_async_wait_handshake, waitHandshakeLoop]
  · cases e <;>
      simp_all [subscribe_async_wait_handshake, waitHandshakeLoop,
        SocketEvent.isHandshakeSucceeded, SocketEvent.isDisconnected]

/-- C4 witness: the theorem applied at concrete inputs (resolve with zero
endpoints consuming nothing; ignore a `ConnectDelayed` event). -/
theorem C4_wait_handshake_state_machine_witness :
    subscribe_async_wait_handshake 0 [SocketEvent.monitorStopped] =
      some [SocketEvent.monitorStopped] ∧
    subscribe_async_wait_handshake 1
        [SocketEvent.connectDelayed, SocketEvent.handshakeSucceeded] =
      subscribe_async_wait_handshake 1 [SocketEvent.handshakeSucceeded] :=
  ⟨C4_wait_handshake_state_machine.1 [SocketEvent.monitorStopped],
    C4_wait_handshake_state_machine.2.2.2.2 0 SocketEvent.connectDelayed
      [SocketEvent.handshakeSucceeded] rfl rfl⟩

/-- C9: monitor-event decode returns `InvalidEventFrameLength` with the frame
length for every frame that is not exactly 6 bytes; a 6-byte frame is split
into the native-order (little-endian here) `u16` event code (bytes 0..2) and
`u32` data word (bytes 2..6) and looked up with `from_raw`; and every event
code outside the fixed table maps to the `Unknown` variant carrying code and
data, not to an error. -/
theorem C9_monitor_event_decode :
    (∀ bytes : List Byte, bytes.length ≠ 6 →
        SocketEvent.parse_from bytes =
          .error (.invalidEventFrameLength bytes.length)) ∧
    (∀ b0 b1 b2 b3 b4 b5 : Byte,
        SocketEvent.parse_from [b0, b1, b2, b3, b4, b5] =
          match SocketEvent.from_raw ⟨fromLeList [b0, b1] % 2 ^ 16, by omega⟩
              (fromLeU32 [b2, b3, b4, b5]) with
          | some ev => .ok ev
          | none =>
              .error (.invalidEventData
                ⟨fromLeList [b0, b1] % 2 ^ 16, by omega⟩
                (fromLeU32 [b2, b3, b4, b5]))) ∧
    (∀ (event : Fin (2 ^ 16)) (data : U32),
        event.val ∉ ([1, 2, 4, 8, 16, 32, 64, 128, 256, 512, 1024, 2048,
            4096, 8192, 16384] : List Nat) →
        SocketEvent.from_raw event data = some (.unknown event data)) := by
  refine ⟨fun bytes h => ?_, fun b0 b1 b2 b3 b4 b5 => ?_,
    fun event data h => ?_⟩
  · rw [SocketEvent.parse_from, if_neg h]
  · rfl
  · simp only [List.mem_cons, List.not_mem_nil, or_false, not_or] at h
    obtain ⟨h1, h2, h3, h4, h5, h6, h7, h8, h9, h10, h11, h12, h13, h14,
      h15⟩ := h
    simp [SocketEvent.from_raw, h1, h2, h3, h4, h5, h6, h7, h8, h9, h10,
      h11, h12, h13, h14, h15]

/-- C9 witness: the theorem applied at a 3-byte frame and at the unlisted
event code 3. -/
theorem C9_monitor_event_decode_witness :
    SocketEvent.parse_from [1, 2, 3] =
      .error (.invalidEventFrameLength 3) ∧
    SocketEvent.from_raw 3 7 = some (.unknown 3 7) :=
  ⟨C9_monitor_event_decode.1 [1, 2, 3] (by decide),
    C9_monitor_event_decode.2.2 3 7 (by decide)⟩

/-- C5: when the first three frames pass the topic-, data- and
sequence-length checks but at least one frame follows, `recv_internal`
consumes and discards every remaining frame and returns
`InvalidMutlipartLength` carrying the total number of frames observed. -/
theorem C5_recv_internal_drains_extra_frames {Block Tx : Type}
    (deserBlock : List Byte → Except Unit Block)
    (deserTx : List Byte → Except Unit Tx)
    (t d s x : List Byte) (rest : List (List Byte))
    (ht : t.length ≤ TOPIC_MAX_LEN) (hd : d.length ≤ DATA_MAX_LEN)
    (hs : s.length = SEQUENCE_LEN) :
    recvInternal deserBlock deserTx (t :: d :: s :: x :: rest) =
      some (.error (.invalidMutlipartLength (4 + rest.length)), []) := by
  have h4 : 3 + 1 + rest.length = 4 + rest.length := by omega
  rw [recvInternal]
  rw [if_neg (by simp [TOPIC_MAX_LEN] at ht ⊢; omega),
    if_neg (by simp [DATA_MAX_LEN] at hd ⊢; omega),
    if_neg (by simp [SEQUENCE_LEN] at hs ⊢; omega)]
  simp only [List.isEmpty_cons, Bool.false_eq_true, if_false, drainLoop_eq,
    h4]

/-- C5 witness: the theorem applied at a concrete 4-frame message. -/
theorem C5_recv_internal_drains_extra_frames_witness :
    recvInternal unitDeser unitDeser
        ([[], [], [0, 0, 0, 0], [1, 2, 3]] : List (List Byte)) =
      some (.error (.invalidMutlipartLength 4), []) :=
  C5_recv_internal_drains_extra_frames unitDeser unitDeser
    [] [] [0, 0, 0, 0] [1, 2, 3] [] (by decide) (by decide) (by decide)

/-- C6 counterexample: on the 3-frame message whose topic frame is 10 bytes
(over the 9-byte topic buffer), `recv_internal` returns the topic error
right after reading frame 1, leaving the remaining two frames unread — so a
single invocation does not always consume the whole multipart message. -/
theorem C6_cex_recv_internal_leaves_frames_unread :
    recvInternal unitDeser unitDeser
        ([List.replicate 10 97, [1], [0, 0, 0, 0]] : List (List Byte)) =
      some (.error (.invalidTopic 10 (List.replicate 9 97)),
        [[1], [0, 0, 0, 0]]) ∧
    ([[1], [0, 0, 0, 0]] : List (List Byte)) ≠ [] := by decide

/-- C6 amended: `recv_internal` consumes the entire multipart message except
when one of the early length checks fails while frames are still pending:
full consumption holds for every 1-frame message, every 2-frame message
whose topic frame fits the 9-byte buffer, every exactly-3-frame message
whose topic and data frames additionally pass their length checks (whatever
the sequence frame), and every message whose first three frames pass all
three length checks (this includes the defensive drain of extra frames). -/
theorem C6_amended_recv_internal_consumption {Block Tx : Type}
    (deserBlock : List Byte → Except Unit Block)
    (deserTx : List Byte → Except Unit Tx) :
    (∀ t : List Byte,
        (recvInternal deserBlock deserTx [t]).map Prod.snd = some []) ∧
    (∀ t d : List Byte, t.length ≤ TOPIC_MAX_LEN →
        (recvInternal deserBlock deserTx [t, d]).map Prod.snd = some []) ∧
    (∀ t d s : List Byte, t.length ≤ TOPIC_MAX_LEN →
        d.length ≤ DATA_MAX_LEN →
        (recvInternal deserBlock deserTx [t, d, s]).map Prod.snd =
          some []) ∧
    (∀ (t d s : List Byte) (rest : List (List Byte)),
        t.length ≤ TOPIC_MAX_LEN → d.length ≤ DATA_MAX_LEN →
        s.length = SEQUENCE_LEN →
        (recvInternal deserBlock deserTx (t :: d :: s :: rest)).map
            Prod.snd = some []) := by
  refine ⟨fun t => ?_, fun t d ht => ?_, fun t d s ht hd => ?_,
    fun t d s rest ht hd hs => ?_⟩
  · rw [recvInternal]
    split_ifs <;> simp_all
  · rw [recvInternal, if_neg (by omega)]
    split_ifs <;> simp_all
  · rw [recvInternal, if_neg (by omega), if_neg (by omega)]
    split_ifs <;> simp_all
  · rcases rest with _ | ⟨x, rest⟩
    · rw [recvInternal, if_neg (by omega), if_neg (by omega)]
      split_ifs <;> simp_all
    · rw [recvInternal, if_neg (by omega), if_neg (by omega),
        if_neg (by simp [SEQUENCE_LEN] at hs ⊢; omega)]
      simp only [List.isEmpty_cons, Bool.false_eq_true, if_false,
        drainLoop_eq]
      rfl

/-- C6 amended witness: the theorem applied at concrete 1- and 4-frame
messages. -/
theorem C6_amended_recv_internal_consumption_witness :
    (recvInternal unitDeser unitDeser
        ([[1, 2]] : List (List Byte))).map Prod.snd = some [] ∧
    (recvInternal unitDeser unitDeser
        ([[], [], [0, 0, 0, 0], [5]] : List (List Byte))).map Prod.snd =
      some [] :=
  ⟨(C6_amended_recv_internal_consumption unitDeser unitDeser).1 [1, 2],
    (C6_amended_recv_internal_consumption unitDeser unitDeser).2.2.2
      [] [] [0, 0, 0, 0] [[5]] (by decide) (by decide) (by decide)⟩

theorem try_from_bytes_const_none (t : List Byte)
    (h : V2.Topic.try_from_bytes_const t = none) :
    t ≠ hashblockBytes ∧ t ≠ hashtxBytes ∧ t ≠ rawblockBytes ∧
      t ≠ rawtxBytes ∧ t ≠ sequenceBytes := by
  rw [V2.Topic.try_from_bytes_const] at h
  split_ifs at h with h1 h2 h3 h4 h5
  exact ⟨h1, h2, h3, h4, h5⟩

theorem try_from_bytes_as_bytes (tp : V2.Topic) :
    V2.Topic.try_from_bytes tp.as_bytes = .ok tp := by
  cases tp <;> decide

theorem from_byte_slice_error_shape (bytes : List Byte) (e : Err)
    (h : SequenceMessage.from_byte_slice bytes = .error e) :
    (∃ n, e = .invalidSequenceMessageLength n) ∨
      (∃ b, e = .invalidSequenceMessageLabel b) := by
  rw [SequenceMessage.from_byte_slice] at h
  repeat' first | split at h | dsimp only at h
  all_goals first
    | (cases h; exact Or.inl ⟨_, rfl⟩)
    | (cases h; exact Or.inr ⟨_, rfl⟩)
    | cases h

/-- C7 counterexample: a 3-frame `hashtx` message whose data frame is empty
(length 0, not 32) but whose sequence frame is 5 bytes decodes to
`InvalidSequenceLength 5` in both revisions, not to
`Invalid256BitHashLength 0` as the claim requires. -/
theorem C7_cex_hash_length_preempted :
    V1.Message.from_multipart unitDeser unitDeser
        [hashtxBytes, [], [0, 0, 0, 0, 0]] =
      .error (.invalidSequenceLength 5) ∧
    V2.Message.from_multipart unitDeser unitDeser
        [hashtxBytes, [], [0, 0, 0, 0, 0]] =
      .error (.invalidSequenceLength 5) ∧
    V1.Message.from_multipart unitDeser unitDeser
        [hashtxBytes, [], [0, 0, 0, 0, 0]] ≠
      .error (.invalid256BitHashLength 0) ∧
    V2.Message.from_multipart unitDeser unitDeser
        [hashtxBytes, [], [0, 0, 0, 0, 0]] ≠
      .error (.invalid256BitHashLength 0) := by decide

/-- C7 amended: for the hash topics, a 3-frame input whose sequence frame is
exactly 4 bytes and whose data frame is not 32 bytes long always decodes to
`Invalid256BitHashLength` carrying the data length (in both revisions); and
no 3-frame input whose data frame is exactly 32 bytes ever decodes to that
error (in either revision). -/
theorem C7_amended_hash_length_check {Block Tx : Type}
    (deserBlock : List Byte → Except Unit Block)
    (deserTx : List Byte → Except Unit Tx) :
    (∀ t d s : List Byte, (t = hashblockBytes ∨ t = hashtxBytes) →
        s.length = 4 → d.length ≠ 32 →
        V1.Message.from_multipart deserBlock deserTx [t, d, s] =
          .error (.invalid256BitHashLength d.length) ∧
        V2.Message.from_multipart deserBlock deserTx [t, d, s] =
          .error (.invalid256BitHashLength d.length)) ∧
    (∀ t d s : List Byte, d.length = 32 →
        isHashLengthError
          (V1.Message.from_multipart deserBlock deserTx [t, d, s]) =
            false ∧
        isHashLengthError
          (V2.Message.from_multipart deserBlock deserTx [t, d, s]) =
            false) := by
  constructor
  · rintro t d s htopic hs hd
    constructor
    · rcases htopic with rfl | rfl
      · rw [V1.Message.from_multipart, V1.Message.from_fixed_size_multipart,
          if_pos hs, V1.Message.from_parts, if_pos (Or.inl rfl),
          dif_neg hd]
      · rw [V1.Message.from_multipart, V1.Message.from_fixed_size_multipart,
          if_pos hs, V1.Message.from_parts, if_pos (Or.inr rfl),
          dif_neg hd]
    · rcases htopic with rfl | rfl <;>
        simp [V2.Message.from_multipart, V2.RawMessage.try_from_multipart,
          V2.RawMessage.try_from_multipart_parts,
          (by decide : V2.Topic.try_from_bytes hashblockBytes =
            Except.ok V2.Topic.hashBlock),
          (by decide : V2.Topic.try_from_bytes hashtxBytes =
            Except.ok V2.Topic.hashTx),
          hs, V2.Message.try_from_raw_message,
          V2.MessageContent.try_from_raw_message, hd]
  · intro t d s hd
    constructor
    · rw [V1.Message.from_multipart, V1.Message.from_fixed_size_multipart]
      split_ifs with hs
      · rw [V1.Message.from_parts]
        split_ifs <;>
          first
            | (simp [isHashLengthError]; done)
            | omega
            | ((rcases hb : deserBlock d <;> simp [isHashLengthError, hb]);
                done)
            | ((rcases hb : deserTx d <;> simp [isHashLengthError, hb]);
                done)
            | ((rcases hb : SequenceMessage.from_byte_slice d with e | sm) <;>
                (try rcases from_byte_slice_error_shape d e hb with
                  ⟨n, rfl⟩ | ⟨b2, rfl⟩) <;>
                simp [isHashLengthError, hb])
      · rfl
    · rcases htb : V2.Topic.try_from_bytes t with u | tp
      · simp [V2.Message.from_multipart, V2.RawMessage.try_from_multipart,
          V2.RawMessage.try_from_multipart_parts, htb, isHashLengthError]
      · simp only [V2.Message.from_multipart,
          V2.RawMessage.try_from_multipart, List.isEmpty_nil, if_true,
          V2.RawMessage.try_from_multipart_parts, htb]
        split_ifs with hs
        · unfold V2.Message.try_from_raw_message
          dsimp only
          cases tp <;>
            simp only [V2.MessageContent.try_from_raw_message] <;>
            first
              | (simp [isHashLengthError, hd]; done)
              | ((rcases hb : deserBlock d <;>
                  simp [isHashLengthError, hb]); done)
              | ((rcases hb : deserTx d <;>
                  simp [isHashLengthError, hb]); done)
              | ((rcases hb : SequenceMessage.from_byte_slice d
                    with e | sm) <;>
                  (try rcases from_byte_slice_error_shape d e hb with
                    ⟨n, rfl⟩ | ⟨b2, rfl⟩) <;>
                  simp [isHashLengthError, hb])
        · rfl

/-- C7 amended witness: the theorem applied at a concrete short-data
`hashblock` input and at a concrete 32-byte-data `sequence` input. -/
theorem C7_amended_hash_length_check_witness :
    (V1.Message.from_multipart unitDeser unitDeser
        [hashblockBytes, [1], [0, 0, 0, 0]] =
      .error (.invalid256BitHashLength 1) ∧
    V2.Message.from_multipart unitDeser unitDeser
        [hashblockBytes, [1], [0, 0, 0, 0]] =
      .error (.invalid256BitHashLength 1)) ∧
    (isHashLengthError
      (V1.Message.from_multipart unitDeser unitDeser
        [sequenceBytes, List.replicate 32 0, [0, 0, 0, 0]]) = false ∧
    isHashLengthError
      (V2.Message.from_multipart unitDeser unitDeser
        [sequenceBytes, List.replicate 32 0, [0, 0, 0, 0]]) = false) :=
  ⟨(C7_amended_hash_length_check unitDeser unitDeser).1
      hashblockBytes [1] [0, 0, 0, 0] (Or.inl rfl) (by decide) (by decide),
    (C7_amended_hash_length_check unitDeser unitDeser).2
      sequenceBytes (List.replicate 32 0) [0, 0, 0, 0] (by decide)⟩

/-- C8 counterexample: a 12-byte unrecognized topic decodes (newer revision)
to an unknown-topic error carrying all 12 original bytes — not truncated to
the 9-byte topic-buffer capacity, i.e. the capture is a full copy of the
input topic frame. -/
theorem C8_cex_unknown_topic_not_truncated :
    V2.Message.from_multipart unitDeser unitDeser
        [List.replicate 12 97, [], [0, 0, 0, 0]] =
      .error (.unknownTopic (List.replicate 12 97)) ∧
    (List.replicate 12 (97 : Byte)).length = 12 ∧
    V2.Message.from_multipart unitDeser unitDeser
        [List.replicate 12 97, [], [0, 0, 0, 0]] ≠
      .error (.unknownTopic
        ((List.replicate 12 (97 : Byte)).take TOPIC_MAX_LEN)) := by decide

/-- C8 amended: on a 3-frame input with an unrecognized topic (and a 4-byte
sequence frame), both revisions return their unknown-topic error; the older
revision's `InvalidTopic` carries the real length and the topic truncated
into the fixed 9-byte buffer, while the newer revision's `UnknownTopicError`
carries a full, unbounded copy of the topic bytes. -/
theorem C8_amended_unknown_topic_capture {Block Tx : Type}
    (deserBlock : List Byte → Except Unit Block)
    (deserTx : List Byte → Except Unit Tx)
    (t d s : List Byte)
    (ht : V2.Topic.try_from_bytes_const t = none) (hs : s.length = 4) :
    V1.Message.from_multipart deserBlock deserTx [t, d, s] =
      .error (.invalidTopic t.length (pad9 t)) ∧
    V2.Message.from_multipart deserBlock deserTx [t, d, s] =
      .error (.unknownTopic t) ∧
    (pad9 t).length = TOPIC_MAX_LEN := by
  obtain ⟨h1, h2, h3, h4, h5⟩ := try_from_bytes_const_none t ht
  refine ⟨?_, ?_, ?_⟩
  · rw [V1.Message.from_multipart, V1.Message.from_fixed_size_multipart,
      if_pos hs, V1.Message.from_parts, if_neg (not_or.mpr ⟨h1, h2⟩),
      if_neg h3, if_neg h4, if_neg h5]
  · simp [V2.Message.from_multipart, V2.RawMessage.try_from_multipart,
      V2.RawMessage.try_from_multipart_parts, V2.Topic.try_from_bytes, ht]
  · simp [pad9, TOPIC_MAX_LEN]
    omega

/-- C8 amended witness: the theorem applied at the concrete 1-byte unknown
topic `[97]`. -/
theorem C8_amended_unknown_topic_capture_witness :
    V1.Message.from_multipart unitDeser unitDeser [[97], [], [0, 0, 0, 0]] =
      .error (.invalidTopic 1 (pad9 [97])) ∧
    V2.Message.from_multipart unitDeser unitDeser [[97], [], [0, 0, 0, 0]] =
      .error (.unknownTopic [97]) ∧
    (pad9 [97]).length = TOPIC_MAX_LEN :=
  C8_amended_unknown_topic_capture unitDeser unitDeser [97] [] [0, 0, 0, 0]
    (by decide) (by decide)

/-- C1: for every constructible `Message`, serializing to the 3-frame wire
form (topic, data, 4-byte little-endian sequence) and decoding those frames
yields the same message again — in both decoder revisions — whenever the
external consensus codec satisfies its own decode-encode round-trip law. -/
theorem C1_message_roundtrip {Block Tx : Type}
    (serBlock : Block → List Byte) (serTx : Tx → List Byte)
    (deserBlock : List Byte → Except Unit Block)
    (deserTx : List Byte → Except Unit Tx)
    (hB : ∀ b, deserBlock (serBlock b) = .ok b)
    (hT : ∀ t, deserTx (serTx t) = .ok t) :
    (∀ m : V1.Message Block Tx,
        V1.Message.from_multipart deserBlock deserTx
          (m.serialize_to_vecs serBlock serTx) = .ok m) ∧
    (∀ m : V2.Message Block Tx,
        V2.Message.from_multipart deserBlock deserTx
          (m.serialize_to_vecs serBlock serTx) = .ok m) := by
  have n1 : ¬(hashtxBytes = hashblockBytes) := by decide
  have n2 : ¬(rawblockBytes = hashblockBytes) := by decide
  have n3 : ¬(rawblockBytes = hashtxBytes) := by decide
  have n4 : ¬(rawtxBytes = hashblockBytes) := by decide
  have n5 : ¬(rawtxBytes = hashtxBytes) := by decide
  have n6 : ¬(rawtxBytes = rawblockBytes) := by decide
  have n7 : ¬(sequenceBytes = hashblockBytes) := by decide
  have n8 : ¬(sequenceBytes = hashtxBytes) := by decide
  have n9 : ¬(sequenceBytes = rawblockBytes) := by decide
  have n10 : ¬(sequenceBytes = rawtxBytes) := by decide
  have tb1 : V2.Topic.try_from_bytes hashblockBytes = .ok .hashBlock := by
    decide
  have tb2 : V2.Topic.try_from_bytes hashtxBytes = .ok .hashTx := by decide
  have tb3 : V2.Topic.try_from_bytes rawblockBytes = .ok .rawBlock := by
    decide
  have tb4 : V2.Topic.try_from_bytes rawtxBytes = .ok .rawTx := by decide
  have tb5 : V2.Topic.try_from_bytes sequenceBytes = .ok .sequence := by
    decide
  constructor
  · intro m
    cases m with
    | hashBlock hsh q =>
        simp [V1.Message.serialize_to_vecs, V1.Message.topic,
          V1.Message.serialize_data_to_vec, V1.Message.sequence,
          V1.Message.from_multipart, V1.Message.from_fixed_size_multipart,
          toLeList_length, fromLeU32_toLeList, V1.Message.from_parts,
          hsh.2]
    | hashTx hsh q =>
        simp [V1.Message.serialize_to_vecs, V1.Message.topic,
          V1.Message.serialize_data_to_vec, V1.Message.sequence,
          V1.Message.from_multipart, V1.Message.from_fixed_size_multipart,
          toLeList_length, fromLeU32_toLeList, V1.Message.from_parts,
          hsh.2, n1]
    | block b q =>
        simp [V1.Message.serialize_to_vecs, V1.Message.topic,
          V1.Message.serialize_data_to_vec, V1.Message.sequence,
          V1.Message.from_multipart, V1.Message.from_fixed_size_multipart,
          toLeList_length, fromLeU32_toLeList, V1.Message.from_parts,
          n2, n3, hB]
    | tx t q =>
        simp [V1.Message.serialize_to_vecs, V1.Message.topic,
          V1.Message.serialize_data_to_vec, V1.Message.sequence,
          V1.Message.from_multipart, V1.Message.from_fixed_size_multipart,
          toLeList_length, fromLeU32_toLeList, V1.Message.from_parts,
          n4, n5, n6, hT]
    | sequenceMsg sm q =>
        simp [V1.Message.serialize_to_vecs, V1.Message.topic,
          V1.Message.serialize_data_to_vec, V1.Message.sequence,
          V1.Message.from_multipart, V1.Message.from_fixed_size_multipart,
          toLeList_length, fromLeU32_toLeList, V1.Message.from_parts,
          n7, n8, n9, n10, SequenceMessage.roundtrip]
  · rintro ⟨content, q⟩
    cases content <;>
      simp [V2.Message.serialize_to_vecs,
        V2.Message.serialize_to_raw_message, V2.MessageContent.topic,
        V2.MessageContent.serialize_data_to_vec, V2.Topic.as_bytes,
        V2.RawMessage.to_vecs, V2.Message.from_multipart,
        V2.RawMessage.try_from_multipart,
        V2.RawMessage.try_from_multipart_parts, tb1, tb2, tb3, tb4, tb5,
        toLeList_length, fromLeU32_toLeList,
        V2.Message.try_from_raw_message,
        V2.MessageContent.try_from_raw_message, hB, hT,
        SequenceMessage.roundtrip]

/-- C1 witness: the theorem applied with the trivial unit codec (which
satisfies the round-trip law definitionally) at concrete messages. -/
theorem C1_message_roundtrip_witness :
    V1.Message.from_multipart unitDeser unitDeser
        ((V1.Message.sequenceMsg
            (.blockConnect ⟨List.replicate 32 0, by decide⟩) 7
          : V1.Message Unit Unit).serialize_to_vecs unitSer unitSer) =
      .ok (V1.Message.sequenceMsg
        (.blockConnect ⟨List.replicate 32 0, by decide⟩) 7) ∧
    V2.Message.from_multipart unitDeser unitDeser
        ((⟨.tx (), 5⟩ : V2.Message Unit Unit).serialize_to_vecs
          unitSer unitSer) =
      .ok ⟨.tx (), 5⟩ :=
  ⟨(C1_message_roundtrip unitSer unitSer unitDeser unitDeser
      (fun _ => rfl) (fun _ => rfl)).1
      (V1.Message.sequenceMsg
        (.blockConnect ⟨List.replicate 32 0, by decide⟩) 7),
    (C1_message_roundtrip unitSer unitSer unitDeser unitDeser
      (fun _ => rfl) (fun _ => rfl)).2 ⟨.tx (), 5⟩⟩

theorem try_from_bytes_const_some (t : List Byte) (tp : V2.Topic)
    (h : V2.Topic.try_from_bytes_const t = some tp) : t = tp.as_bytes := by
  rw [V2.Topic.try_from_bytes_const] at h
  split_ifs at h with h1 h2 h3 h4 h5 <;> cases h <;>
    first | exact h1 | exact h2 | exact h3 | exact h4 | exact h5

theorem corr_try_from_raw {Block Tx : Type}
    (deserBlock : List Byte → Except Unit Block)
    (deserTx : List Byte → Except Unit Tx)
    (tp : V2.Topic) (d : List Byte) (q : U32) :
    corresponds
      (V1.Message.from_parts deserBlock deserTx tp.as_bytes d q)
      (V2.Message.try_from_raw_message deserBlock deserTx ⟨tp, d, q⟩) := by
  have n1 : ¬(hashtxBytes = hashblockBytes) := by decide
  have n2 : ¬(rawblockBytes = hashblockBytes) := by decide
  have n3 : ¬(rawblockBytes = hashtxBytes) := by decide
  have n4 : ¬(rawtxBytes = hashblockBytes) := by decide
  have n5 : ¬(rawtxBytes = hashtxBytes) := by decide
  have n6 : ¬(rawtxBytes = rawblockBytes) := by decide
  have n7 : ¬(sequenceBytes = hashblockBytes) := by decide
  have n8 : ¬(sequenceBytes = hashtxBytes) := by decide
  have n9 : ¬(sequenceBytes = rawblockBytes) := by decide
  have n10 : ¬(sequenceBytes = rawtxBytes) := by decide
  cases tp with
  | hashBlock =>
      by_cases hd : d.length = 32 <;>
        simp [V1.Message.from_parts, V2.Message.try_from_raw_message,
          V2.MessageContent.try_from_raw_message, V2.Topic.as_bytes, hd,
          corresponds, toV2, errClass]
  | hashTx =>
      by_cases hd : d.length = 32 <;>
        simp [V1.Message.from_parts, V2.Message.try_from_raw_message,
          V2.MessageContent.try_from_raw_message, V2.Topic.as_bytes, hd,
          n1, corresponds, toV2, errClass]
  | rawBlock =>
      rcases hdb : deserBlock d with e | b <;>
        simp [V1.Message.from_parts, V2.Message.try_from_raw_message,
          V2.MessageContent.try_from_raw_message, V2.Topic.as_bytes,
          n2, n3, hdb, corresponds, toV2, errClass]
  | rawTx =>
      rcases hdt : deserTx d with e | b <;>
        simp [V1.Message.from_parts, V2.Message.try_from_raw_message,
          V2.MessageContent.try_from_raw_message, V2.Topic.as_bytes,
          n4, n5, n6, hdt, corresponds, toV2, errClass]
  | sequence =>
      rcases hsq : SequenceMessage.from_byte_slice d with e | sm <;>
        simp [V1.Message.from_parts, V2.Message.try_from_raw_message,
          V2.MessageContent.try_from_raw_message, V2.Topic.as_bytes,
          n7, n8, n9, n10, hsq, corresponds, toV2, errClass]

/-- C10 counterexample: on the 3-frame input with unrecognized topic
"something" and an 11-byte sequence frame, the older decoder checks the
sequence frame first and returns `InvalidSequenceLength 11`, while the newer
decoder resolves the topic first and returns the unknown-topic error — the
two revisions do not correspond on this doubly-invalid input, contrary to
the claim's "including for inputs that are invalid in more than one way". -/
theorem C10_cex_decoder_divergence :
    V1.Message.from_multipart unitDeser unitDeser
        [[115, 111, 109, 101, 116, 104, 105, 110, 103], [],
          [110, 111, 116, 32, 52, 32, 98, 121, 116, 101, 115]] =
      .error (.invalidSequenceLength 11) ∧
    V2.Message.from_multipart unitDeser unitDeser
        [[115, 111, 109, 101, 116, 104, 105, 110, 103], [],
          [110, 111, 116, 32, 52, 32, 98, 121, 116, 101, 115]] =
      .error (.unknownTopic
        [115, 111, 109, 101, 116, 104, 105, 110, 103]) ∧
    ¬ corresponds
        (V1.Message.from_multipart unitDeser unitDeser
          [[115, 111, 109, 101, 116, 104, 105, 110, 103], [],
            [110, 111, 116, 32, 52, 32, 98, 121, 116, 101, 115]])
        (V2.Message.from_multipart unitDeser unitDeser
          [[115, 111, 109, 101, 116, 104, 105, 110, 103], [],
            [110, 111, 116, 32, 52, 32, 98, 121, 116, 101, 115]]) := by
  decide

/-- C10 amended: the two decoder revisions are equivalent — same decoded
topic, content and sequence number on success (via the evident variant
bijection), and same error class on failure — on every multipart input
except the 3-frame inputs that combine an unrecognized topic with a
sequence frame that is not 4 bytes (there the older decoder reports
`InvalidSequenceLength`, the newer one the unknown-topic error). -/
theorem C10_amended_decoder_equivalence {Block Tx : Type}
    (deserBlock : List Byte → Except Unit Block)
    (deserTx : List Byte → Except Unit Tx)
    (mp : List (List Byte))
    (h : ∀ t d s : List Byte, mp = [t, d, s] →
        (V2.Topic.try_from_bytes_const t).isSome = true ∨ s.length = 4) :
    corresponds (V1.Message.from_multipart deserBlock deserTx mp)
      (V2.Message.from_multipart deserBlock deserTx mp) := by
  rcases mp with _ | ⟨t, _ | ⟨d, _ | ⟨s, _ | ⟨x, r⟩⟩⟩⟩
  · simp [V1.Message.from_multipart, V2.Message.from_multipart,
      V2.RawMessage.try_from_multipart, corresponds, errClass]
  · simp [V1.Message.from_multipart, V2.Message.from_multipart,
      V2.RawMessage.try_from_multipart, corresponds, errClass]
  · simp [V1.Message.from_multipart, V2.Message.from_multipart,
      V2.RawMessage.try_from_multipart, corresponds, errClass]
  · rcases h t d s rfl with hsome | hs4
    · obtain ⟨tp, htc⟩ := Option.isSome_iff_exists.mp hsome
      obtain rfl : t = tp.as_bytes := try_from_bytes_const_some t tp htc
      have htb : V2.Topic.try_from_bytes tp.as_bytes = .ok tp := by
        rw [V2.Topic.try_from_bytes, htc]
      by_cases hs : s.length = 4
      · rw [V1.Message.from_multipart, V1.Message.from_fixed_size_multipart,
          if_pos hs]
        have hv2 : V2.Message.from_multipart deserBlock deserTx
            [tp.as_bytes, d, s] =
            V2.Message.try_from_raw_message deserBlock deserTx
              ⟨tp, d, fromLeU32 s⟩ := by
          simp [V2.Message.from_multipart, V2.RawMessage.try_from_multipart,
            V2.RawMessage.try_from_multipart_parts, htb, hs]
        rw [hv2]
        exact corr_try_from_raw deserBlock deserTx tp d (fromLeU32 s)
      · rw [V1.Message.from_multipart, V1.Message.from_fixed_size_multipart,
          if_neg hs]
        simp [V2.Message.from_multipart, V2.RawMessage.try_from_multipart,
          V2.RawMessage.try_from_multipart_parts, htb, hs, corresponds,
          errClass]
    · rcases htc : V2.Topic.try_from_bytes_const t with _ | tp
      · obtain ⟨h1, h2, h3, h4, h5⟩ := try_from_bytes_const_none t htc
        rw [V1.Message.from_multipart, V1.Message.from_fixed_size_multipart,
          if_pos hs4, V1.Message.from_parts,
          if_neg (not_or.mpr ⟨h1, h2⟩), if_neg h3, if_neg h4, if_neg h5]
        simp [V2.Message.from_multipart, V2.RawMessage.try_from_multipart,
          V2.RawMessage.try_from_multipart_parts, V2.Topic.try_from_bytes,
          htc, corresponds, errClass]
      · obtain rfl : t = tp.as_bytes := try_from_bytes_const_some t tp htc
        have htb : V2.Topic.try_from_bytes tp.as_bytes = .ok tp := by
          rw [V2.Topic.try_from_bytes, htc]
        rw [V1.Message.from_multipart, V1.Message.from_fixed_size_multipart,
          if_pos hs4]
        have hv2 : V2.Message.from_multipart deserBlock deserTx
            [tp.as_bytes, d, s] =
            V2.Message.try_from_raw_message deserBlock deserTx
              ⟨tp, d, fromLeU32 s⟩ := by
          simp [V2.Message.from_multipart, V2.RawMessage.try_from_multipart,
            V2.RawMessage.try_from_multipart_parts, htb, hs4]
        rw [hv2]
        exact corr_try_from_raw deserBlock deserTx tp d (fromLeU32 s)
  · rw [V1.Message.from_multipart]
    simp [V2.Message.from_multipart, V2.RawMessage.try_from_multipart,
      corresponds, errClass]
    intro a b c hc
    injection hc with e1 e2
    injection e2 with e3 e4
    injection e4 with e5 e6
    exact List.noConfusion e6

/-- C10 amended witness: the theorem applied at a concrete well-formed
3-frame `sequence`-topic input. -/
theorem C10_amended_decoder_equivalence_witness :
    corresponds
      (V1.Message.from_multipart unitDeser unitDeser
        [sequenceBytes, [], [0, 0, 0, 0]])
      (V2.Message.from_multipart unitDeser unitDeser
        [sequenceBytes, [], [0, 0, 0, 0]]) :=
  C10_amended_decoder_equivalence unitDeser unitDeser
    [sequenceBytes, [], [0, 0, 0, 0]]
    (fun t d s hh => by
      injection hh with hh1 hh2
      injection hh2 with hh3 hh4
      injection hh4 with hh5 hh6
      subst hh5
      exact Or.inr rfl)
